import Mathlib

/-!
Verification of the NewsletterGPT digest pipeline (`newsletter_processor.py`).

The pipeline is a single linear batch job: for each configured sender it
queries unread messages (capped at one result), fetches and decodes each
message body, archives the message, summarizes the per-sender combined
content, and finally sends one digest email if any summaries were produced.

We embed the program shallowly.  The external Gmail and OpenAI services are
modelled as an oracle record `GmailEnv` of response functions; every call the
program makes to an external service is also recorded as an `Event` so that
claims about the number and order of calls can be stated as facts about the
emitted trace.  Fallible code (the `parts[0]` subscript, which raises on an
empty parts list) is modelled with `Option`; `none` means the Python run
aborts with an uncaught exception.
-/

namespace NewsletterGPT

/-- A message reference as returned by the query step: an opaque id
(`message['id']` is the only field the program reads). -/
structure MessageRef where
  id : String
deriving DecidableEq, Repr

/-- A message body part: the optional base64url `data` field.
`none` models an absent `data` key (`body.get('data', '')` then yields `''`). -/
structure MessageBody where
  data : Option String
deriving DecidableEq, Repr

/-- A sub-part of a multipart payload; the program only ever reads its body. -/
structure MessagePart where
  body : MessageBody
deriving DecidableEq, Repr

/-- A message payload: a top-level body and, when the message is multipart,
a list of sub-parts (`'parts' in payload`). -/
structure MessagePayload where
  body : MessageBody
  parts : Option (List MessagePart)
deriving DecidableEq, Repr

/-- The run's calendar date, as observed via `datetime.now()`. -/
structure Date where
  year : Nat
  month : Nat
  day : Nat
deriving DecidableEq, Repr

/-- Left-pad the decimal representation of `n` with zeros to width 2,
as `strftime` does for `%m` and `%d`. -/
def pad2 (n : Nat) : String :=
  if n < 10 then "0" ++ toString n else toString n

/-- Zero-padding to width 4, as `strftime` does for `%Y`. -/
def pad4 (n : Nat) : String :=
  if n < 10 then "000" ++ toString n
  else if n < 100 then "00" ++ toString n
  else if n < 1000 then "0" ++ toString n
  else toString n

/-- `datetime.strftime('%Y-%m-%d')`: the date in YYYY-MM-DD form. -/
def strftimeYmd (d : Date) : String :=
  pad4 d.year ++ "-" ++ pad2 d.month ++ "-" ++ pad2 d.day

/-- The oracle for the external collaborators: Gmail list/get/decode results,
the OpenAI completion text, and the wall clock.  The program is deterministic
given this record. -/
structure GmailEnv where
  /-- Response of `users().messages().list` for a given query string. -/
  listMessages : String → List MessageRef
  /-- Payload of `users().messages().get` for a given message id. -/
  getPayload : String → MessagePayload
  /-- `base64.urlsafe_b64decode(data).decode()` for a given data string. -/
  decode : String → String
  /-- The completion text returned by `openai.chat.completions.create`. -/
  summarize : String → String
  /-- `datetime.now()` at the send step. -/
  now : Date

/-- One externally visible call made by the program. -/
inductive Event where
  /-- `users().messages().list(userId='me', q=query, maxResults=n)`. -/
  | listQuery (query : String) (maxResults : Nat)
  /-- `users().messages().get(userId='me', id=msgId, format='full')`. -/
  | fetch (msgId : String)
  /-- `users().messages().modify` removing the given label ids. -/
  | archive (msgId : String) (removeLabelIds : List String)
  /-- `summarize_with_gpt(content)`; `submitted` is the (possibly truncated)
  user-message text actually sent to the summarization service. -/
  | summarizeCall (content : String) (submitted : String)
  /-- `users().messages().send` of the digest (recipient, subject, body,
  recorded before MIME/base64 encoding). -/
  | sendEmail (recipient : String) (subject : String) (body : String)
deriving DecidableEq, Repr

/-- `NEWSLETTER_SENDERS` (lines 16-21 of the source). -/
def NEWSLETTER_SENDERS : List String :=
  ["review@firstround.com",
   "dan@tldrnewsletter.com",
   "lenny@substack.com",
   "andrewchen@substack.com"]

/-- The Gmail search query built in `get_newsletter_emails` (line 63). -/
def senderQuery (sender_email : String) : String :=
  "from:" ++ sender_email ++ " is:unread"

/-- `get_newsletter_emails(service, sender_email)` (lines 52-66): one list
call with `maxResults=1`; returns the message list and the emitted trace. -/
def get_newsletter_emails (env : GmailEnv) (sender_email : String) :
    List MessageRef × List Event :=
  let query := senderQuery sender_email
  let messages := env.listMessages query
  (messages, [Event.listQuery query 1])

/-- `get_email_content(service, msg_id)` (lines 68-91): fetch the payload;
if it has sub-parts use the first sub-part's body data, otherwise the
top-level body data; decode when non-empty, else return `''`.  Returns
`none` when `parts` is present but empty (Python raises `IndexError` on
`parts[0]`). -/
def get_email_content (env : GmailEnv) (msg_id : String) :
    Option String × List Event :=
  let message := env.getPayload msg_id
  let trace := [Event.fetch msg_id]
  match message.parts with
  | some parts =>
    match parts with
    | [] => (none, trace)
    | p :: _ =>
      let data := p.body.data.getD ""
      (some (if data ≠ "" then env.decode data else ""), trace)
  | none =>
    let data := message.body.data.getD ""
    (some (if data ≠ "" then env.decode data else ""), trace)

/-- The truncation rule of `summarize_with_gpt` (line 104):
`content[:4000] + "..." if len(content) > 4000 else content`. -/
def truncate_content (content : String) : String :=
  if content.length > 4000 then content.take 4000 ++ "..." else content

/-- `summarize_with_gpt(content)` (lines 93-113): truncate, submit, return
the completion text; the trace records both the argument and the submitted
text. -/
def summarize_with_gpt (env : GmailEnv) (content : String) :
    String × List Event :=
  let truncated := truncate_content content
  (env.summarize truncated, [Event.summarizeCall content truncated])

/-- The digest body built in `send_summary_email` (lines 126-130): a dated
header line then, per entry and in order, a blank line, `From <sender>:`
and the summary. -/
def digestBody (date_str : String) (summaries : List (String × String)) :
    String :=
  summaries.foldl
    (fun acc p => acc ++ "\nFrom " ++ p.1 ++ ":\n" ++ p.2 ++ "\n")
    ("Newsletter Summaries for " ++ date_str ++ "\n\n")

/-- `send_summary_email(service, summaries)` (lines 115-137): compose the
digest and send it to the fixed recipient. -/
def send_summary_email (env : GmailEnv) (summaries : List (String × String)) :
    List Event :=
  let date_str := strftimeYmd env.now
  [Event.sendEmail "atreya@gmail.com"
    ("Newsletter Summaries - " ++ date_str)
    (digestBody date_str summaries)]

/-- `archive_email(service, msg_id)` (lines 139-154): one modify call
removing the UNREAD and INBOX labels. -/
def archive_email (msg_id : String) : List Event :=
  [Event.archive msg_id ["UNREAD", "INBOX"]]

/-- Python dict assignment `summaries[sender] = summary` on an
insertion-ordered dict: update in place when the key exists, else append. -/
def dictInsert (d : List (String × String)) (k v : String) :
    List (String × String) :=
  if d.any (fun p => p.1 = k) then
    d.map (fun p => if p.1 = k then (k, v) else p)
  else d ++ [(k, v)]

/-- The inner message loop of `main` (lines 186-189): for each message,
fetch and decode its content, append it plus a blank line to the
accumulated buffer, then archive the message.  `none` propagates an
exception from `get_email_content`. -/
def processMessages (env : GmailEnv) (msgs : List MessageRef)
    (combined_content : String) : Option String × List Event :=
  match msgs with
  | [] => (some combined_content, [])
  | message :: rest =>
    let fetched := get_email_content env message.id
    match fetched.1 with
    | none => (none, fetched.2)
    | some content =>
      let combined := combined_content ++ content ++ "\n\n"
      let next := processMessages env rest combined
      (next.1, fetched.2 ++ archive_email message.id ++ next.2)

/-- One iteration of the sender loop of `main` (lines 179-193): query the
sender; if no messages, continue unchanged; otherwise process the messages
from an empty buffer and, when the buffer is non-empty, summarize it and
store the result keyed by sender. -/
def processSender (env : GmailEnv) (summaries : List (String × String))
    (sender : String) : Option (List (String × String)) × List Event :=
  let queried := get_newsletter_emails env sender
  if queried.1.isEmpty then (some summaries, queried.2)
  else
    let processed := processMessages env queried.1 ""
    match processed.1 with
    | none => (none, queried.2 ++ processed.2)
    | some combined_content =>
      if combined_content ≠ "" then
        let summarized := summarize_with_gpt env combined_content
        (some (dictInsert summaries sender summarized.1),
          queried.2 ++ processed.2 ++ summarized.2)
      else (some summaries, queried.2 ++ processed.2)

/-- The sender loop of `main` over a list of senders, threading the
summaries dict and concatenating traces; aborts on exception. -/
def processSenders (env : GmailEnv) (senders : List String)
    (summaries : List (String × String)) :
    Option (List (String × String)) × List Event :=
  match senders with
  | [] => (some summaries, [])
  | sender :: rest =>
    let step := processSender env summaries sender
    match step.1 with
    | none => (none, step.2)
    | some summaries₂ =>
      let next := processSenders env rest summaries₂
      (next.1, step.2 ++ next.2)

/-- `main()` (lines 156-197), run over an arbitrary configured sender list:
process every sender, then send the digest exactly when the summaries dict
is non-empty.  Returns the final dict (`none` on an aborted run) and the
full emitted trace. -/
def mainLoop (env : GmailEnv) (senders : List String) :
    Option (List (String × String)) × List Event :=
  let processed := processSenders env senders []
  match processed.1 with
  | none => (none, processed.2)
  | some summaries =>
    if summaries.isEmpty then (some summaries, processed.2)
    else (some summaries, processed.2 ++ send_summary_email env summaries)

/-- `main()` as shipped: the loop over the configured `NEWSLETTER_SENDERS`. -/
def main (env : GmailEnv) : Option (List (String × String)) × List Event :=
  mainLoop env NEWSLETTER_SENDERS

/-- The list-query events of a trace. -/
def queryEvents (trace : List Event) : List Event :=
  trace.filter (fun e => match e with
    | Event.listQuery _ _ => true
    | _ => false)

/-- The summarization-call events of a trace. -/
def summarizeEvents (trace : List Event) : List Event :=
  trace.filter (fun e => match e with
    | Event.summarizeCall _ _ => true
    | _ => false)

/-- The send events of a trace. -/
def sendEvents (trace : List Event) : List Event :=
  trace.filter (fun e => match e with
    | Event.sendEmail _ _ _ => true
    | _ => false)

/-- The keys of the summaries dict, in insertion order. -/
def dictKeys (d : List (String × String)) : List String :=
  d.map Prod.fst

/-- The digest blocks as the spec describes them: one block per entry, in
order, each a blank line, a `From` line and the summary text.  Stated
from the spec wording, to be compared with `digestBody` from the source. -/
def digestBlocks : List (String × String) → String
  | [] => ""
  | p :: rest => "\nFrom " ++ p.1 ++ ":\n" ++ p.2 ++ "\n" ++ digestBlocks rest

/-- The digest body as the spec describes it: a dated header line followed
by the blocks. -/
def specDigestBody (date_str : String) (summaries : List (String × String)) :
    String :=
  "Newsletter Summaries for " ++ date_str ++ "\n\n" ++ digestBlocks summaries

/-- A concrete oracle: one monitored sender with one unread message whose
selected body carries no data field, so its content decodes to the empty
string. -/
def envEmptyBody : GmailEnv where
  listMessages := fun q => if q = senderQuery "a@x" then [⟨"m1"⟩] else []
  getPayload := fun _ => ⟨⟨none⟩, none⟩
  decode := fun _ => "DECODED"
  summarize := fun _ => "SUMMARY"
  now := ⟨2026, 10, 12⟩

/-- A concrete oracle: one sender with one unread message whose body
decodes to the text `Hello`. -/
def envHello : GmailEnv where
  listMessages := fun q => if q = senderQuery "a@x" then [⟨"m1"⟩] else []
  getPayload := fun _ => ⟨⟨some "QQ"⟩, none⟩
  decode := fun s => if s = "QQ" then "Hello" else ""
  summarize := fun _ => "SUMMARY"
  now := ⟨2026, 10, 12⟩

/-- A concrete oracle: a multipart payload with two sub-parts and a
top-level body, to watch which body is decoded. -/
def envParts : GmailEnv where
  listMessages := fun _ => []
  getPayload := fun _ => ⟨⟨some "TOP"⟩, some [⟨⟨some "PP"⟩⟩, ⟨⟨some "XX"⟩⟩]⟩
  decode := fun s => s ++ "!"
  summarize := fun _ => "SUMMARY"
  now := ⟨2026, 10, 12⟩

/-- A concrete oracle over the shipped sender list: only the second
configured sender has an unread message. -/
def envDan : GmailEnv where
  listMessages := fun q =>
    if q = senderQuery "dan@tldrnewsletter.com" then [⟨"m7"⟩] else []
  getPayload := fun _ => ⟨⟨some "ZZ"⟩, none⟩
  decode := fun _ => "Body"
  summarize := fun _ => "SUM"
  now := ⟨2026, 10, 12⟩

/-- A long input for exercising the truncation rule. -/
def longContent : String :=
  String.mk (List.replicate 4001 'a')

/-! ## Helper lemmas -/

/-- Fetching content always emits exactly one get call. -/
theorem get_email_content_snd (env : GmailEnv) (m : String) :
    (get_email_content env m).2 = [Event.fetch m] := by
  unfold get_email_content
  cases h : (env.getPayload m).parts with
  | none => simp [h]
  | some parts => cases parts <;> simp [h]

/-- A completed message loop emits, per message and in list order, the fetch
immediately followed by the archive. -/
theorem processMessages_snd (env : GmailEnv) :
    ∀ (msgs : List MessageRef) (c : String),
      (processMessages env msgs c).1.isSome →
      (processMessages env msgs c).2 =
        (msgs.map fun m =>
          [Event.fetch m.id, Event.archive m.id ["UNREAD", "INBOX"]]).flatten := by
  intro msgs
  induction msgs with
  | nil => intro c _; simp [processMessages]
  | cons m rest ih =>
    intro c h
    cases hf : (get_email_content env m.id).1 with
    | none => simp [processMessages, hf] at h
    | some content =>
      have h2 : (processMessages env rest (c ++ content ++ "\n\n")).1.isSome := by
        simpa [processMessages, hf] using h
      simp [processMessages, hf, get_email_content_snd, archive_email, ih _ h2]

/-- A completed message loop only grows the buffer: two characters per
message at least (the blank-line separator). -/
theorem processMessages_length (env : GmailEnv) :
    ∀ (msgs : List MessageRef) (c r : String),
      (processMessages env msgs c).1 = some r →
      c.length + 2 * msgs.length ≤ r.length := by
  intro msgs
  induction msgs with
  | nil =>
    intro c r h
    simp [processMessages] at h
    subst h; simp
  | cons m rest ih =>
    intro c r h
    cases hf : (get_email_content env m.id).1 with
    | none => simp [processMessages, hf] at h
    | some content =>
      have h2 : (processMessages env rest (c ++ content ++ "\n\n")).1 = some r := by
        simpa [processMessages, hf] using h
      have h3 := ih (c ++ content ++ "\n\n") r h2
      have h4 : ("\n\n" : String).length = 2 := rfl
      simp [String.length_append, h4] at h3
      simp [List.length_cons]
      omega

/-- A completed message loop over at least one message yields a non-empty
buffer: every message appends the two-character separator. -/
theorem processMessages_ne_empty (env : GmailEnv) (msgs : List MessageRef)
    (r : String) (hne : msgs ≠ [])
    (h : (processMessages env msgs "").1 = some r) : r ≠ "" := by
  have h1 := processMessages_length env msgs "" r h
  have h2 : 1 ≤ msgs.length := by
    cases msgs with
    | nil => exact absurd rfl hne
    | cons a l => simp [List.length_cons]
  intro hr
  subst hr
  have h0 : ("" : String).length = 0 := rfl
  rw [h0] at h1
  omega

/-- A sender whose query comes back empty is skipped: the dict is unchanged
and the only emitted call is the query itself. -/
theorem processSender_of_empty (env : GmailEnv) (d : List (String × String))
    (s : String) (h : env.listMessages (senderQuery s) = []) :
    processSender env d s = (some d, [Event.listQuery (senderQuery s) 1]) := by
  simp [processSender, get_newsletter_emails, h]

/-- A sender whose query returns messages and whose message loop completes
gets summarized and stored: the emitted calls are the query, the message
loop's calls, then the summarization call on the combined buffer. -/
theorem processSender_of_some (env : GmailEnv) (d : List (String × String))
    (s : String) (combined : String)
    (hne : env.listMessages (senderQuery s) ≠ [])
    (hc : (processMessages env (env.listMessages (senderQuery s)) "").1 =
      some combined) :
    processSender env d s =
      (some (dictInsert d s (env.summarize (truncate_content combined))),
       Event.listQuery (senderQuery s) 1 ::
         (processMessages env (env.listMessages (senderQuery s)) "").2
         ++ [Event.summarizeCall combined (truncate_content combined)]) := by
  have hcne : combined ≠ "" := processMessages_ne_empty env _ combined hne hc
  simp [processSender, get_newsletter_emails, summarize_with_gpt,
    List.isEmpty_iff, hne, hc, hcne]

/-- Completing one sender iteration either leaves the dict unchanged or
performs a single dict assignment keyed by that sender. -/
theorem processSender_result_cases (env : GmailEnv)
    (d r : List (String × String)) (s : String)
    (h : (processSender env d s).1 = some r) :
    r = d ∨ ∃ v, r = dictInsert d s v := by
  by_cases hq : env.listMessages (senderQuery s) = []
  · rw [processSender_of_empty env d s hq] at h
    simp at h
    exact Or.inl h.symm
  · cases hc : (processMessages env (env.listMessages (senderQuery s)) "").1 with
    | none =>
      simp [processSender, get_newsletter_emails, List.isEmpty_iff, hq, hc] at h
    | some combined =>
      rw [processSender_of_some env d s combined hq hc] at h
      simp at h
      exact Or.inr ⟨_, h.symm⟩

/-- `queryEvents` distributes over trace concatenation. -/
theorem queryEvents_append (a b : List Event) :
    queryEvents (a ++ b) = queryEvents a ++ queryEvents b :=
  List.filter_append _ _

/-- The message loop makes no list queries. -/
theorem queryEvents_processMessages (env : GmailEnv) :
    ∀ (msgs : List MessageRef) (c : String),
      queryEvents (processMessages env msgs c).2 = [] := by
  intro msgs
  induction msgs with
  | nil => intro c; simp [processMessages, queryEvents]
  | cons m rest ih =>
    intro c
    cases hf : (get_email_content env m.id).1 with
    | none =>
      simp only [processMessages, hf]
      rw [get_email_content_snd]
      rfl
    | some content =>
      simp only [processMessages, hf]
      rw [get_email_content_snd, queryEvents_append, queryEvents_append, ih]
      rfl

/-- Each sender iteration makes exactly one list query, with `maxResults=1`
and the sender-specific unread filter. -/
theorem queryEvents_processSender (env : GmailEnv)
    (d : List (String × String)) (s : String) :
    queryEvents (processSender env d s).2 =
      [Event.listQuery (senderQuery s) 1] := by
  by_cases hq : env.listMessages (senderQuery s) = []
  · rw [processSender_of_empty env d s hq]
    simp [queryEvents]
  · cases hc : (processMessages env (env.listMessages (senderQuery s)) "").1 with
    | none =>
      simp only [processSender, get_newsletter_emails, List.isEmpty_iff, hq,
        if_neg hq, hc, if_false]
      show queryEvents ([Event.listQuery (senderQuery s) 1] ++
        (processMessages env (env.listMessages (senderQuery s)) "").2) = _
      rw [queryEvents_append, queryEvents_processMessages]
      rfl
    | some combined =>
      rw [processSender_of_some env d s combined hq hc]
      show queryEvents (([Event.listQuery (senderQuery s) 1] ++
        (processMessages env (env.listMessages (senderQuery s)) "").2)
        ++ [Event.summarizeCall combined (truncate_content combined)]) = _
      rw [queryEvents_append, queryEvents_append, queryEvents_processMessages]
      rfl

/-- A completed sender loop makes exactly one list query per configured
sender, in configured order. -/
theorem queryEvents_processSenders (env : GmailEnv) :
    ∀ (senders : List String) (acc : List (String × String)),
      (processSenders env senders acc).1.isSome →
      queryEvents (processSenders env senders acc).2 =
        senders.map (fun s => Event.listQuery (senderQuery s) 1) := by
  intro senders
  induction senders with
  | nil => intro acc _; simp [processSenders, queryEvents]
  | cons s rest ih =>
    intro acc h
    cases hstep : (processSender env acc s).1 with
    | none => simp [processSenders, hstep] at h
    | some acc₂ =>
      have h2 : (processSenders env rest acc₂).1.isSome := by
        simpa [processSenders, hstep] using h
      simp [processSenders, hstep, queryEvents_append,
        queryEvents_processSender, ih _ h2]

/-- `sendEvents` distributes over trace concatenation. -/
theorem sendEvents_append (a b : List Event) :
    sendEvents (a ++ b) = sendEvents a ++ sendEvents b :=
  List.filter_append _ _

/-- The message loop sends no email. -/
theorem sendEvents_processMessages (env : GmailEnv) :
    ∀ (msgs : List MessageRef) (c : String),
      sendEvents (processMessages env msgs c).2 = [] := by
  intro msgs
  induction msgs with
  | nil => intro c; rfl
  | cons m rest ih =>
    intro c
    cases hf : (get_email_content env m.id).1 with
    | none =>
      simp only [processMessages, hf]
      rw [get_email_content_snd]
      rfl
    | some content =>
      simp only [processMessages, hf]
      rw [get_email_content_snd, sendEvents_append, sendEvents_append, ih]
      rfl

/-- A sender iteration sends no email. -/
theorem sendEvents_processSender (env : GmailEnv)
    (d : List (String × String)) (s : String) :
    sendEvents (processSender env d s).2 = [] := by
  by_cases hq : env.listMessages (senderQuery s) = []
  · rw [processSender_of_empty env d s hq]
    rfl
  · cases hc : (processMessages env (env.listMessages (senderQuery s)) "").1 with
    | none =>
      simp only [processSender, get_newsletter_emails, List.isEmpty_iff, hq,
        if_neg hq, hc, if_false]
      show sendEvents ([Event.listQuery (senderQuery s) 1] ++
        (processMessages env (env.listMessages (senderQuery s)) "").2) = _
      rw [sendEvents_append, sendEvents_processMessages]
      rfl
    | some combined =>
      rw [processSender_of_some env d s combined hq hc]
      show sendEvents (([Event.listQuery (senderQuery s) 1] ++
        (processMessages env (env.listMessages (senderQuery s)) "").2)
        ++ [Event.summarizeCall combined (truncate_content combined)]) = _
      rw [sendEvents_append, sendEvents_append, sendEvents_processMessages]
      rfl

/-- The sender loop sends no email: sending happens only after it. -/
theorem sendEvents_processSenders (env : GmailEnv) :
    ∀ (senders : List String) (acc : List (String × String)),
      sendEvents (processSenders env senders acc).2 = [] := by
  intro senders
  induction senders with
  | nil => intro acc; rfl
  | cons s rest ih =>
    intro acc
    cases hstep : (processSender env acc s).1 with
    | none =>
      simp only [processSenders, hstep]
      exact sendEvents_processSender env acc s
    | some acc₂ =>
      simp only [processSenders, hstep]
      rw [sendEvents_append, sendEvents_processSender, ih]
      rfl

/-- A dict assignment on a present key leaves the key list unchanged. -/
theorem dictKeys_dictInsert_of_mem (d : List (String × String))
    (k v : String) (h : k ∈ dictKeys d) :
    dictKeys (dictInsert d k v) = dictKeys d := by
  have hany : (d.any fun p => p.1 = k) = true := by
    rw [List.any_eq_true]
    rcases List.mem_map.mp h with ⟨p, hp, hpk⟩
    exact ⟨p, hp, by simp [hpk]⟩
  simp only [dictInsert, hany, if_true]
  unfold dictKeys
  rw [List.map_map]
  apply List.map_congr_left
  intro p _
  by_cases hpk : p.1 = k
  · simp [hpk]
  · simp [hpk]

/-- A dict assignment on a fresh key appends it to the key list. -/
theorem dictKeys_dictInsert_of_not_mem (d : List (String × String))
    (k v : String) (h : k ∉ dictKeys d) :
    dictKeys (dictInsert d k v) = dictKeys d ++ [k] := by
  have hany : (d.any fun p => p.1 = k) = false := by
    rw [List.any_eq_false]
    intro p hp
    simp only [decide_eq_true_eq]
    intro hpk
    exact h (List.mem_map.mpr ⟨p, hp, hpk⟩)
  simp [dictInsert, hany, dictKeys]

/-- Completing the sender loop extends the key list by a duplicate-free
subsequence of the processed senders, disjoint from the keys already
present. -/
theorem processSenders_keys_extend (env : GmailEnv) :
    ∀ (senders : List String) (acc res : List (String × String)),
      (processSenders env senders acc).1 = some res →
      ∃ extra, dictKeys res = dictKeys acc ++ extra ∧
        extra.Sublist senders ∧ (∀ k ∈ extra, k ∉ dictKeys acc) ∧
        extra.Nodup := by
  intro senders
  induction senders with
  | nil =>
    intro acc res h
    simp [processSenders] at h
    subst h
    exact ⟨[], by simp⟩
  | cons s rest ih =>
    intro acc res h
    cases hstep : (processSender env acc s).1 with
    | none => simp [processSenders, hstep] at h
    | some acc₂ =>
      have hres : (processSenders env rest acc₂).1 = some res := by
        simpa [processSenders, hstep] using h
      have hkeys : dictKeys acc₂ = dictKeys acc ∨
          (s ∉ dictKeys acc ∧ dictKeys acc₂ = dictKeys acc ++ [s]) := by
        rcases processSender_result_cases env acc acc₂ s hstep with heq | ⟨v, heq⟩
        · exact Or.inl (by rw [heq])
        · by_cases hmem : s ∈ dictKeys acc
          · exact Or.inl (by rw [heq, dictKeys_dictInsert_of_mem _ _ _ hmem])
          · exact Or.inr ⟨hmem,
              by rw [heq, dictKeys_dictInsert_of_not_mem _ _ _ hmem]⟩
      rcases ih acc₂ res hres with ⟨extra₂, hk, hsub, hdisj, hnd⟩
      rcases hkeys with hsame | ⟨hfresh, happ⟩
      · exact ⟨extra₂, by rw [hk, hsame], hsub.cons s,
          fun k hkm => by
            have := hdisj k hkm
            rwa [hsame] at this,
          hnd⟩
      · refine ⟨s :: extra₂, ?_, hsub.cons₂ s, ?_, ?_⟩
        · rw [hk, happ, List.append_assoc]
          rfl
        · intro k hkm
          rcases List.mem_cons.mp hkm with hks | hkm₂
          · subst hks; exact hfresh
          · have := hdisj k hkm₂
            rw [happ] at this
            intro hka
            exact this (List.mem_append.mpr (Or.inl hka))
        · refine List.nodup_cons.mpr ⟨?_, hnd⟩
          intro hsm
          have := hdisj s hsm
          rw [happ] at this
          exact this (List.mem_append.mpr (Or.inr (List.mem_singleton.mpr rfl)))

/-- A sender whose query is empty never gains a key during the loop. -/
theorem processSenders_not_mem_keys (env : GmailEnv) (s : String)
    (hq : env.listMessages (senderQuery s) = []) :
    ∀ (senders : List String) (acc res : List (String × String)),
      s ∉ dictKeys acc →
      (processSenders env senders acc).1 = some res →
      s ∉ dictKeys res := by
  intro senders
  induction senders with
  | nil =>
    intro acc res hna h
    simp [processSenders] at h
    subst h
    exact hna
  | cons t rest ih =>
    intro acc res hna h
    cases hstep : (processSender env acc t).1 with
    | none => simp [processSenders, hstep] at h
    | some acc₂ =>
      have hres : (processSenders env rest acc₂).1 = some res := by
        simpa [processSenders, hstep] using h
      have hna₂ : s ∉ dictKeys acc₂ := by
        rcases processSender_result_cases env acc acc₂ t hstep with heq | ⟨v, heq⟩
        · rwa [heq]
        · by_cases hts : t = s
          · subst hts
            rw [processSender_of_empty env acc t hq] at hstep
            simp at hstep
            rwa [hstep] at hna
          · by_cases hmem : t ∈ dictKeys acc
            · rw [heq, dictKeys_dictInsert_of_mem _ _ _ hmem]
              exact hna
            · rw [heq, dictKeys_dictInsert_of_not_mem _ _ _ hmem]
              intro hsm
              rcases List.mem_append.mp hsm with hsa | hss
              · exact hna hsa
              · exact hts (List.mem_singleton.mp hss).symm
      exact ih acc₂ res hna₂ hres

/-- The digest body built by the source equals the spec-shaped composition:
header then one block per entry, in order. -/
theorem digestBody_eq_spec :
    ∀ (summaries : List (String × String)) (init : String),
      summaries.foldl
        (fun acc p => acc ++ "\nFrom " ++ p.1 ++ ":\n" ++ p.2 ++ "\n") init =
      init ++ digestBlocks summaries := by
  intro summaries
  induction summaries with
  | nil => intro init; simp [digestBlocks, String.append_empty]
  | cons p rest ih =>
    intro init
    rw [List.foldl_cons, ih, digestBlocks]
    simp [String.append_assoc]

/-- The composed digest body equals the spec-shaped body. -/
theorem digestBody_eq (date_str : String) (summaries : List (String × String)) :
    digestBody date_str summaries = specDigestBody date_str summaries := by
  unfold digestBody specDigestBody
  rw [digestBody_eq_spec]

/-- The send step emits exactly one send call, to the fixed recipient, with
the dated subject and the spec-shaped body. -/
theorem send_summary_email_eq (env : GmailEnv)
    (summaries : List (String × String)) :
    send_summary_email env summaries =
      [Event.sendEmail "atreya@gmail.com"
        ("Newsletter Summaries - " ++ strftimeYmd env.now)
        (specDigestBody (strftimeYmd env.now) summaries)] := by
  have h : send_summary_email env summaries =
      [Event.sendEmail "atreya@gmail.com"
        ("Newsletter Summaries - " ++ strftimeYmd env.now)
        (digestBody (strftimeYmd env.now) summaries)] := rfl
  rw [h, digestBody_eq]

/-- The send step makes no list query. -/
theorem queryEvents_send_summary (env : GmailEnv)
    (summaries : List (String × String)) :
    queryEvents (send_summary_email env summaries) = [] := rfl

/-- The send step's trace is exactly its one send call. -/
theorem sendEvents_send_summary (env : GmailEnv)
    (summaries : List (String × String)) :
    sendEvents (send_summary_email env summaries) =
      send_summary_email env summaries := rfl

/-- An aborted sender loop aborts the program. -/
theorem mainLoop_none (env : GmailEnv) (senders : List String)
    (h : (processSenders env senders []).1 = none) :
    mainLoop env senders = (none, (processSenders env senders []).2) := by
  simp [mainLoop, h]

/-- With no summaries the program ends without sending. -/
theorem mainLoop_some_empty (env : GmailEnv) (senders : List String)
    (h : (processSenders env senders []).1 = some []) :
    mainLoop env senders = (some [], (processSenders env senders []).2) := by
  simp [mainLoop, h]

/-- With summaries present the program appends exactly one send step. -/
theorem mainLoop_some_nonempty (env : GmailEnv) (senders : List String)
    (summaries : List (String × String))
    (h : (processSenders env senders []).1 = some summaries)
    (hne : summaries ≠ []) :
    mainLoop env senders =
      (some summaries,
       (processSenders env senders []).2 ++ send_summary_email env summaries) := by
  simp [mainLoop, h, List.isEmpty_iff, hne]

/-! ## Claims -/

/-- C3: for every input string given to the summarization step, if its
length exceeds 4000 characters the submitted text is exactly its first
4000 characters followed by the truncation marker, and if its length is at
most 4000 characters the submitted text is the input unchanged. -/
theorem c3_truncation (content : String) :
    (4000 < content.length →
      truncate_content content = content.take 4000 ++ "...") ∧
    (content.length ≤ 4000 → truncate_content content = content) := by
  constructor
  · intro h
    simp [truncate_content, h]
  · intro h
    simp [truncate_content, Nat.not_lt.mpr h]

/-- Witness for C3 at a 4001-character input and at a short input. -/
theorem c3_truncation_witness :
    truncate_content longContent = longContent.take 4000 ++ "..." ∧
    truncate_content "tiny" = "tiny" :=
  ⟨(c3_truncation longContent).1
      (by
        have h1 : longContent.length = (List.replicate 4001 'a').length := rfl
        rw [h1, List.length_replicate]
        norm_num),
   (c3_truncation "tiny").2 (by decide)⟩

/-- C9: for every fetched payload, when a list of sub-parts is present only
the first sub-part's body data is decoded and returned; otherwise the
top-level body data is decoded and returned; and when the selected body
carries no data field the content fetch returns the empty string instead
of failing. -/
theorem c9_first_part_selection (env : GmailEnv) (msg_id : String)
    (p : MessagePart) (ps : List MessagePart) :
    ((env.getPayload msg_id).parts = some (p :: ps) →
      (get_email_content env msg_id).1 =
        some (if p.body.data.getD "" ≠ ""
          then env.decode (p.body.data.getD "") else "") ∧
      (p.body.data = none → (get_email_content env msg_id).1 = some "")) ∧
    ((env.getPayload msg_id).parts = none →
      (get_email_content env msg_id).1 =
        some (if (env.getPayload msg_id).body.data.getD "" ≠ ""
          then env.decode ((env.getPayload msg_id).body.data.getD "") else "") ∧
      ((env.getPayload msg_id).body.data = none →
        (get_email_content env msg_id).1 = some "")) := by
  constructor
  · intro hp
    have h1 : (get_email_content env msg_id).1 =
        some (if p.body.data.getD "" ≠ ""
          then env.decode (p.body.data.getD "") else "") := by
      simp only [get_email_content, hp]
    refine ⟨h1, fun hd => ?_⟩
    rw [h1, hd]
    simp
  · intro hp
    have h1 : (get_email_content env msg_id).1 =
        some (if (env.getPayload msg_id).body.data.getD "" ≠ ""
          then env.decode ((env.getPayload msg_id).body.data.getD "")
          else "") := by
      simp only [get_email_content, hp]
    refine ⟨h1, fun hd => ?_⟩
    rw [h1, hd]
    simp

/-- Witness for C9: with two sub-parts only the first is decoded (top-level
body ignored), and an absent data field yields the empty string. -/
theorem c9_first_part_selection_witness :
    (get_email_content envParts "m1").1 = some "PP!" ∧
    (get_email_content envEmptyBody "m1").1 = some "" := by
  constructor
  · have h := ((c9_first_part_selection envParts "m1"
      ⟨⟨some "PP"⟩⟩ [⟨⟨some "XX"⟩⟩]).1 (by decide)).1
    exact h.trans (by decide)
  · exact ((c9_first_part_selection envEmptyBody "m1"
      ⟨⟨none⟩⟩ []).2 (by decide)).2 (by decide)

/-- C7: a sender whose unread-message query returns zero messages gains no
entry in the final sender-to-summary mapping, has no archive call issued
(the iteration emits only its query), and processing continues without
error with the dict unchanged. -/
theorem c7_zero_messages_skip (env : GmailEnv) (s : String)
    (d : List (String × String)) (senders : List String)
    (res : List (String × String))
    (hq : env.listMessages (senderQuery s) = [])
    (hres : (processSenders env senders []).1 = some res) :
    processSender env d s = (some d, [Event.listQuery (senderQuery s) 1]) ∧
    s ∉ dictKeys res :=
  ⟨processSender_of_empty env d s hq,
   processSenders_not_mem_keys env s hq senders [] res (by simp [dictKeys])
     hres⟩

/-- Witness for C7: a sender with no unread messages next to one with. -/
theorem c7_zero_messages_skip_witness :
    processSender envHello [] "b@y" =
      (some [], [Event.listQuery (senderQuery "b@y") 1]) ∧
    "b@y" ∉ dictKeys [("a@x", "SUMMARY")] :=
  c7_zero_messages_skip envHello "b@y" [] ["a@x"] [("a@x", "SUMMARY")]
    (by decide) (by decide)

/-- C8: in a completed sender iteration with messages, each message's
archive call (removing the UNREAD and INBOX labels) immediately follows
that message's fetch, and the single summarization call for the sender
comes only after every fetch-archive pair. -/
theorem c8_archive_before_summarize (env : GmailEnv) (s : String)
    (d : List (String × String)) (combined : String)
    (hne : env.listMessages (senderQuery s) ≠ [])
    (hc : (processMessages env (env.listMessages (senderQuery s)) "").1 =
      some combined) :
    processSender env d s =
      (some (dictInsert d s (env.summarize (truncate_content combined))),
       Event.listQuery (senderQuery s) 1 ::
         ((env.listMessages (senderQuery s)).map fun m =>
           [Event.fetch m.id, Event.archive m.id ["UNREAD", "INBOX"]]).flatten
         ++ [Event.summarizeCall combined (truncate_content combined)]) := by
  rw [processSender_of_some env d s combined hne hc,
    processMessages_snd env _ "" (by rw [hc]; rfl)]

/-- Witness for C8 on a concrete one-message sender. -/
theorem c8_archive_before_summarize_witness :
    processSender envHello [] "a@x" =
      (some (dictInsert [] "a@x"
        (envHello.summarize (truncate_content "Hello\n\n"))),
       Event.listQuery (senderQuery "a@x") 1 ::
         ((envHello.listMessages (senderQuery "a@x")).map fun m =>
           [Event.fetch m.id, Event.archive m.id ["UNREAD", "INBOX"]]).flatten
         ++ [Event.summarizeCall "Hello\n\n" (truncate_content "Hello\n\n")]) :=
  c8_archive_before_summarize envHello "a@x" [] "Hello\n\n" (by decide)
    (by decide)

/-- C1 counterexample: a sender with one message whose body decodes to the
empty string.  The accumulated buffer is the bare separator, which is
non-empty, so the summarization step IS invoked (on the two-newline
string) and an entry for the sender DOES appear in the mapping —
contradicting the claim that an all-empty decode skips summarization. -/
theorem c1_empty_bodies_counterexample :
    (get_email_content envEmptyBody "m1").1 = some "" ∧
    envEmptyBody.listMessages (senderQuery "a@x") = [⟨"m1"⟩] ∧
    (mainLoop envEmptyBody ["a@x"]).1 = some [("a@x", "SUMMARY")] ∧
    Event.summarizeCall "\n\n" "\n\n" ∈ (mainLoop envEmptyBody ["a@x"]).2 := by
  decide

/-- C1 amended: whenever a sender's query returns at least one message and
the message loop completes, the accumulated buffer is necessarily
non-empty (every message appends the blank-line separator), so the
summarization step is invoked exactly on that buffer and an entry keyed by
the sender is stored; the empty-buffer skip is unreachable. -/
theorem c1_summarize_on_nonempty_buffer (env : GmailEnv) (s : String)
    (d : List (String × String)) (combined : String)
    (hne : env.listMessages (senderQuery s) ≠ [])
    (hc : (processMessages env (env.listMessages (senderQuery s)) "").1 =
      some combined) :
    combined ≠ "" ∧
    (processSender env d s).1 =
      some (dictInsert d s (env.summarize (truncate_content combined))) ∧
    Event.summarizeCall combined (truncate_content combined) ∈
      (processSender env d s).2 := by
  have h := processSender_of_some env d s combined hne hc
  refine ⟨processMessages_ne_empty env _ combined hne hc, ?_, ?_⟩
  · rw [h]
  · rw [h]
    simp

/-- Witness for the amended C1: the all-empty-bodies sender still gets
summarized. -/
theorem c1_summarize_on_nonempty_buffer_witness :
    ("\n\n" : String) ≠ "" ∧
    (processSender envEmptyBody [] "a@x").1 =
      some (dictInsert [] "a@x"
        (envEmptyBody.summarize (truncate_content "\n\n"))) ∧
    Event.summarizeCall "\n\n" (truncate_content "\n\n") ∈
      (processSender envEmptyBody [] "a@x").2 :=
  c1_summarize_on_nonempty_buffer envEmptyBody "a@x" [] "\n\n" (by decide)
    (by decide)

/-- C2 counterexample: a sender with exactly one unread message whose body
decodes to `Hello` (well under the truncation limit, so truncation is the
identity).  The only summarization call receives `Hello\n\n` — the body
followed by the appended separator — not `Hello`. -/
theorem c2_separator_counterexample :
    (get_email_content envHello "m1").1 = some "Hello" ∧
    envHello.listMessages (senderQuery "a@x") = [⟨"m1"⟩] ∧
    truncate_content "Hello" = "Hello" ∧
    summarizeEvents (mainLoop envHello ["a@x"]).2 =
      [Event.summarizeCall "Hello\n\n" "Hello\n\n"] ∧
    ("Hello\n\n" : String) ≠ "Hello" := by
  decide

/-- C2 amended: for a sender returning exactly one unread message with
decodable body text `T`, the summarization call's input is `T` followed by
the appended blank-line separator (modulo truncation), and the archive
call for that message's id is issued exactly once — the iteration's trace
is exactly the query, the fetch, one archive, and the summarization
call. -/
theorem c2_content_with_separator (env : GmailEnv) (s : String)
    (d : List (String × String)) (T msgid : String)
    (hq : env.listMessages (senderQuery s) = [⟨msgid⟩])
    (hc : (get_email_content env msgid).1 = some T) :
    processSender env d s =
      (some (dictInsert d s
        (env.summarize (truncate_content (T ++ "\n\n")))),
       [Event.listQuery (senderQuery s) 1, Event.fetch msgid,
        Event.archive msgid ["UNREAD", "INBOX"],
        Event.summarizeCall (T ++ "\n\n")
          (truncate_content (T ++ "\n\n"))]) := by
  have hpm : processMessages env [⟨msgid⟩] "" =
      (some (T ++ "\n\n"),
       [Event.fetch msgid, Event.archive msgid ["UNREAD", "INBOX"]]) := by
    simp only [processMessages, hc]
    rw [get_email_content_snd]
    rw [String.empty_append]
    rfl
  have h := processSender_of_some env d s (T ++ "\n\n")
    (by rw [hq]; simp) (by rw [hq, hpm])
  rw [hq, hpm] at h
  rw [h]
  rfl

/-- Witness for the amended C2 at the concrete `Hello` message. -/
theorem c2_content_with_separator_witness :
    processSender envHello [] "a@x" =
      (some (dictInsert [] "a@x"
        (envHello.summarize (truncate_content ("Hello" ++ "\n\n")))),
       [Event.listQuery (senderQuery "a@x") 1, Event.fetch "m1",
        Event.archive "m1" ["UNREAD", "INBOX"],
        Event.summarizeCall ("Hello" ++ "\n\n")
          (truncate_content ("Hello" ++ "\n\n"))]) :=
  c2_content_with_separator envHello "a@x" [] "Hello" "m1" (by decide)
    (by decide)

/-- C4: once all senders are processed, an empty sender-to-summary mapping
means no digest send call occurs and the run terminates normally, while a
non-empty mapping yields exactly one digest send call. -/
theorem c4_send_guard (env : GmailEnv) (senders : List String)
    (summaries : List (String × String))
    (h : (processSenders env senders []).1 = some summaries) :
    (summaries = [] →
      (mainLoop env senders).1 = some summaries ∧
      sendEvents (mainLoop env senders).2 = []) ∧
    (summaries ≠ [] →
      sendEvents (mainLoop env senders).2 =
        send_summary_email env summaries ∧
      (sendEvents (mainLoop env senders).2).length = 1) := by
  constructor
  · intro he
    subst he
    rw [mainLoop_some_empty env senders h]
    exact ⟨rfl, sendEvents_processSenders env senders []⟩
  · intro hne
    rw [mainLoop_some_nonempty env senders summaries h hne]
    have hs : sendEvents ((processSenders env senders []).2 ++
        send_summary_email env summaries) = send_summary_email env summaries := by
      rw [sendEvents_append, sendEvents_processSenders,
        sendEvents_send_summary]
      rfl
    refine ⟨hs, ?_⟩
    rw [hs]
    rfl

/-- Witness for C4 at a run with one produced summary. -/
theorem c4_send_guard_witness :
    ([("dan@tldrnewsletter.com", "SUM")] = ([] : List (String × String)) →
      (mainLoop envDan NEWSLETTER_SENDERS).1 =
        some [("dan@tldrnewsletter.com", "SUM")] ∧
      sendEvents (mainLoop envDan NEWSLETTER_SENDERS).2 = []) ∧
    ([("dan@tldrnewsletter.com", "SUM")] ≠ ([] : List (String × String)) →
      sendEvents (mainLoop envDan NEWSLETTER_SENDERS).2 =
        send_summary_email envDan [("dan@tldrnewsletter.com", "SUM")] ∧
      (sendEvents (mainLoop envDan NEWSLETTER_SENDERS).2).length = 1) :=
  c4_send_guard envDan NEWSLETTER_SENDERS [("dan@tldrnewsletter.com", "SUM")]
    (by decide)

/-- C5: for a completed run with a non-empty mapping, the sent digest is a
plain-text body that starts with a header line containing the run's date
in YYYY-MM-DD form and continues with one block per mapping entry in
insertion order — a blank line, the `From` line, then the summary — and
the subject line contains the same date. -/
theorem c5_digest_format (env : GmailEnv) (senders : List String)
    (summaries : List (String × String))
    (h : (processSenders env senders []).1 = some summaries)
    (hne : summaries ≠ []) :
    (mainLoop env senders).2 = (processSenders env senders []).2 ++
      [Event.sendEmail "atreya@gmail.com"
        ("Newsletter Summaries - " ++ strftimeYmd env.now)
        (specDigestBody (strftimeYmd env.now) summaries)] ∧
    List.IsInfix (strftimeYmd env.now).data
      ("Newsletter Summaries - " ++ strftimeYmd env.now).data ∧
    List.IsInfix (strftimeYmd env.now).data
      (specDigestBody (strftimeYmd env.now) summaries).data := by
  refine ⟨?_, ?_, ?_⟩
  · rw [mainLoop_some_nonempty env senders summaries h hne,
      send_summary_email_eq]
  · exact ⟨"Newsletter Summaries - ".data, [],
      by simp [String.data_append]⟩
  · exact ⟨"Newsletter Summaries for ".data,
      ("\n\n" ++ digestBlocks summaries).data,
      by simp [specDigestBody, String.data_append]⟩

/-- Witness for C5 at a run with one produced summary. -/
theorem c5_digest_format_witness :
    (mainLoop envDan NEWSLETTER_SENDERS).2 =
      (processSenders envDan NEWSLETTER_SENDERS []).2 ++
      [Event.sendEmail "atreya@gmail.com"
        ("Newsletter Summaries - " ++ strftimeYmd envDan.now)
        (specDigestBody (strftimeYmd envDan.now)
          [("dan@tldrnewsletter.com", "SUM")])] ∧
    List.IsInfix (strftimeYmd envDan.now).data
      ("Newsletter Summaries - " ++ strftimeYmd envDan.now).data ∧
    List.IsInfix (strftimeYmd envDan.now).data
      (specDigestBody (strftimeYmd envDan.now)
        [("dan@tldrnewsletter.com", "SUM")]).data :=
  c5_digest_format envDan NEWSLETTER_SENDERS
    [("dan@tldrnewsletter.com", "SUM")] (by decide) (by decide)

/-- C6: a completed run over a configured sender list of length N issues
exactly N unread-message list queries, one per sender, in configured
order, each with `maxResults = 1`. -/
theorem c6_query_per_sender (env : GmailEnv) (senders : List String)
    (h : (mainLoop env senders).1.isSome) :
    queryEvents (mainLoop env senders).2 =
      senders.map (fun s => Event.listQuery (senderQuery s) 1) ∧
    (queryEvents (mainLoop env senders).2).length = senders.length := by
  have hq : queryEvents (mainLoop env senders).2 =
      senders.map (fun s => Event.listQuery (senderQuery s) 1) := by
    cases hp : (processSenders env senders []).1 with
    | none =>
      rw [mainLoop_none env senders hp] at h
      simp at h
    | some summaries =>
      have hqs := queryEvents_processSenders env senders []
        (by rw [hp]; rfl)
      cases summaries with
      | nil =>
        rw [mainLoop_some_empty env senders hp]
        exact hqs
      | cons a l =>
        rw [mainLoop_some_nonempty env senders (a :: l) hp (by simp)]
        show queryEvents (_ ++ send_summary_email env (a :: l)) = _
        rw [queryEvents_append, queryEvents_send_summary, hqs]
        simp
  exact ⟨hq, by rw [hq, List.length_map]⟩

/-- Witness for C6 over the shipped sender list. -/
theorem c6_query_per_sender_witness :
    queryEvents (mainLoop envDan NEWSLETTER_SENDERS).2 =
      NEWSLETTER_SENDERS.map (fun s => Event.listQuery (senderQuery s) 1) ∧
    (queryEvents (mainLoop envDan NEWSLETTER_SENDERS).2).length =
      NEWSLETTER_SENDERS.length :=
  c6_query_per_sender envDan NEWSLETTER_SENDERS (by decide)

/-- C10: at every point of the sender loop (any prefix of the configured
list, in particular the whole of it), the mapping's keys in insertion
order form a duplicate-free subsequence of the configured sender list;
hence every key is a configured sender and occurs at most once. -/
theorem c10_keys_invariant (env : GmailEnv) (senders pre suf : List String)
    (mid : List (String × String))
    (hsplit : senders = pre ++ suf)
    (h : (processSenders env pre []).1 = some mid) :
    (dictKeys mid).Sublist senders ∧ (dictKeys mid).Nodup ∧
      dictKeys mid ⊆ senders := by
  rcases processSenders_keys_extend env pre [] mid h with
    ⟨extra, hk, hsub, _, hnd⟩
  have hkeys : dictKeys mid = extra := by simpa [dictKeys] using hk
  subst hsplit
  have h1 : (dictKeys mid).Sublist (pre ++ suf) := by
    rw [hkeys]
    exact hsub.trans (List.sublist_append_left pre suf)
  exact ⟨h1, by rw [hkeys]; exact hnd, h1.subset⟩

/-- Witness for C10 over the full shipped sender list. -/
theorem c10_keys_invariant_witness :
    (dictKeys [("dan@tldrnewsletter.com", "SUM")]).Sublist
      NEWSLETTER_SENDERS ∧
    (dictKeys [("dan@tldrnewsletter.com", "SUM")]).Nodup ∧
    dictKeys [("dan@tldrnewsletter.com", "SUM")] ⊆ NEWSLETTER_SENDERS :=
  c10_keys_invariant envDan NEWSLETTER_SENDERS NEWSLETTER_SENDERS []
    [("dan@tldrnewsletter.com", "SUM")] (by simp) (by decide)

end NewsletterGPT
